import Mathlib

/-!
Shallow embedding of `src/gemini-file-viewer-py/main.py` (a PySide6 file
viewer).  Pure functions are translated to Lean functions; the Qt widget
state mutated by the handlers is gathered in an explicit `AppState` record
and every handler becomes a state-transformer.  Python/Qt library
primitives used by the code (`pathlib.Path.suffix`, `str.count`,
`QPlainTextEdit.find`, `QPixmap` decoding, file reads) are modelled from
their documented semantics; floating point arithmetic is idealised as
exact rational arithmetic over `ℚ`.
-/

namespace FileViewer

/-- `IMG_EXTS` from main.py line 7. -/
def IMG_EXTS : List String := ["png", "jpg", "jpeg", "gif", "bmp", "webp"]

/-- `TXT_EXTS` from main.py line 8 (used only for dialog filters). -/
def TXT_EXTS : List String := ["txt", "rs", "py", "toml", "md", "json", "js", "html", "css"]

/-- Index of the last `'.'` in a character list, if any. -/
def lastDotIdx (cs : List Char) : Option Nat :=
  ((List.range cs.length).filter (fun i => cs.getD i ' ' == '.')).getLast?

/-- The final component of a path (the part after the last `'/'`). -/
def lastComponent (p : String) : List Char :=
  (p.toList.reverse.takeWhile (fun c => !(c == '/'))).reverse

/-- `pathlib.PurePath.suffix`: the extension of the final component,
including the dot; empty when the dot is leading or trailing. -/
def pySuffix (p : String) : List Char :=
  let name := lastComponent p
  match lastDotIdx name with
  | some i => if 0 < i ∧ i < name.length - 1 then name.drop i else []
  | none => []

/-- `path.suffix.lower().lstrip(".")` as computed in `load_path` (line 182). -/
def extOf (p : String) : String :=
  String.mk (((pySuffix p).dropWhile (fun c => c == '.')).map Char.toLower)

/-- Left-to-right non-overlapping count, fuelled by the length of the
scanned list (each step consumes one unit of fuel and at least one
character, so the fuel never runs out). -/
def pyCountAux (sub : List Char) : Nat → List Char → Nat
  | _, [] => if sub.isEmpty then 1 else 0
  | 0, _ :: _ => 0
  | fuel + 1, c :: rest =>
    if sub.isEmpty then 1 + pyCountAux sub fuel rest
    else if sub.isPrefixOf (c :: rest) then
      1 + pyCountAux sub fuel (rest.drop (sub.length - 1))
    else pyCountAux sub fuel rest

/-- Python `str.count(sub)`: number of non-overlapping occurrences of
`sub`, scanning left to right (for an empty `sub`, `len + 1`). -/
def pyCount (sub l : List Char) : Nat := pyCountAux sub l.length l

/-- Case-insensitive prefix test: the first list is a prefix of the
second up to case folding (Qt compares case-insensitively by default). -/
def isPrefixOfCI : List Char → List Char → Bool
  | [], _ => true
  | _ :: _, [] => false
  | a :: as, b :: bs => (a.toLower == b.toLower) && isPrefixOfCI as bs

/-- `needle` occurs in `content` at index `i`, case-insensitively. -/
def occursAt (content needle : List Char) (i : Nat) : Bool :=
  isPrefixOfCI needle (content.drop i)

/-- Least index `i ≥ start` at which `needle` occurs in `content` —
forward, literal, case-insensitive search: the semantics of
`QPlainTextEdit.find` with default flags (Qt finds case-insensitively
unless `FindCaseSensitively` is passed, and main.py lines 227/233 pass no
flags). -/
def findFrom (content needle : List Char) (start : Nat) : Option Nat :=
  ((List.range (content.length + 1)).filter
    (fun i => decide (start ≤ i) && occursAt content needle i)).head?

/-- Python `int()` on a nonnegative-or-negative rational: truncation
toward zero. -/
def pyInt (q : ℚ) : Int := if 0 ≤ q then ⌊q⌋ else ⌈q⌉

/-- `lines = text.count("\n") + 1 if text else 0` (line 199). -/
def lineCount (text : String) : Nat :=
  if text = "" then 0 else pyCount ['\n'] text.toList + 1

/-- State of the `ImageView` widget (main.py lines 11–46): the pixmap (as
its dimensions, `none` when absent), `self.zoom`, `self.fit_to_window`. -/
structure ImageViewState where
  pix : Option (Nat × Nat)
  zoom : ℚ
  fit_to_window : Bool
deriving DecidableEq

/-- `ImageView.set_image` (lines 19–22): store the pixmap and reset
`zoom` to `1.0`; `fit_to_window` is not touched. -/
def set_image (iv : ImageViewState) (p : Nat × Nat) : ImageViewState :=
  { iv with pix := some p, zoom := 1 }

/-- The scale chosen by `ImageView.paintEvent` (lines 36–41). -/
def paintScale (iv : ImageViewState) (availW availH : Nat) : ℚ :=
  match iv.pix with
  | some (pw, ph) =>
    if iv.fit_to_window ∧ 0 < pw ∧ 0 < ph then
      max (1/10) (min 6 (min ((availW : ℚ) / pw) ((availH : ℚ) / ph)))
    else iv.zoom
  | none => iv.zoom

/-- `ImageView.paintEvent` (lines 29–46): the target rectangle
`(x, y, w, h)` handed to `drawPixmap`, or `none` when no pixmap is loaded.
`w = int(pix.width() * scale)`, `x = (width - w) // 2` (Python floor
division). -/
def paintEvent (iv : ImageViewState) (vw vh : Nat) : Option (Int × Int × Int × Int) :=
  match iv.pix with
  | none => none
  | some (pw, ph) =>
    let scale := paintScale iv vw vh
    let w := pyInt ((pw : ℚ) * scale)
    let h := pyInt ((ph : ℚ) * scale)
    some (Int.fdiv ((vw : Int) - w) 2, Int.fdiv ((vh : Int) - h) 2, w, h)

/-- The font set on the text widget: its base family (the application
default initially, the system fixed-width font after a reset) and the
accumulated point-size scale relative to that base. -/
inductive FontBase
  | appDefault
  | systemFixed
deriving DecidableEq

structure TextFont where
  base : FontBase
  scale : ℚ
deriving DecidableEq

/-- The mutable state of `MainWindow` together with its child widgets. -/
structure AppState where
  current_path : Option String
  recents : List String
  textVisible : Bool
  imageVisible : Bool
  textContent : String
  cursor : Nat
  selection : Option (Nat × Nat)
  statusMsg : Option String
  image : ImageViewState
  chk_fit : Bool
  text_zoom : ℚ
  font : TextFont
  find_text : String
  find_countLabel : String
deriving DecidableEq

/-- The state established by `MainWindow.__init__` (lines 50–119): the
text widget is in the layout and not hidden, the image view is hidden
(line 75), both zoom factors are `1.0`. -/
def initState : AppState :=
  { current_path := none
    recents := []
    textVisible := true
    imageVisible := false
    textContent := ""
    cursor := 0
    selection := none
    statusMsg := none
    image := { pix := none, zoom := 1, fit_to_window := false }
    chk_fit := false
    text_zoom := 1
    font := { base := FontBase.appDefault, scale := 1 }
    find_text := ""
    find_countLabel := "" }

/-- The two widgets the wheel-routing logic of `eventFilter` can
distinguish (`obj is self.image` / `obj is self.text`). -/
inductive Widget
  | imageW
  | textW
deriving DecidableEq

/-- `MainWindow.eventFilter` (lines 121–137) restricted to wheel events:
given the watched object, the wheel `angleDelta().y()` and whether Ctrl is
held, produce the new state and whether the event was filtered. -/
def eventFilter (s : AppState) (obj : Widget) (delta : Int) (ctrl : Bool) :
    AppState × Bool :=
  match obj with
  | Widget.imageW =>
    if delta ≠ 0 then
      ({ s with image := { s.image with
          fit_to_window := false,
          zoom := max (1/10) (min 6 (s.image.zoom * (if 0 < delta then 11/10 else 10/11))) } },
       true)
    else (s, false)
  | Widget.textW =>
    if ctrl ∧ delta ≠ 0 then
      ({ s with
          text_zoom := max (3/5) (min 3 (s.text_zoom * (if 0 < delta then 21/20 else 20/21))),
          font := { s.font with
            scale := s.font.scale * (if 0 < delta then 21/20 else 20/21) } },
       true)
    else (s, false)

/-- The widgets an event filter was installed on: `__init__` line 119
contains exactly one call, `self.text.installEventFilter(self)`. -/
def watchedWidgets : List Widget := [Widget.textW]

/-- Delivery of a wheel event to a widget: `MainWindow.eventFilter` runs
only for widgets it was installed on (Qt event-filter semantics);
otherwise the widget's default wheel handling runs, which changes none of
the modelled state (a `QLabel` ignores wheel events). -/
def deliverWheel (s : AppState) (obj : Widget) (delta : Int) (ctrl : Bool) : AppState :=
  if obj ∈ watchedWidgets then (eventFilter s obj delta ctrl).1 else s

/-- `MainWindow.toggle_fit` (lines 151–153). -/
def toggle_fit (s : AppState) (b : Bool) : AppState :=
  { s with chk_fit := b, image := { s.image with fit_to_window := b } }

/-- `MainWindow.zoom_image` (lines 155–161): a no-op unless the image
view is visible; otherwise disables fit-to-window (and unchecks the
checkbox) and applies the clamped multiplicative step. -/
def zoom_image (s : AppState) (factor : ℚ) : AppState :=
  if s.imageVisible then
    { s with
        chk_fit := false,
        image := { s.image with
          fit_to_window := false,
          zoom := max (1/10) (min 6 (s.image.zoom * factor)) } }
  else s

/-- `MainWindow.reset_zoom` (lines 163–171). -/
def reset_zoom (s : AppState) : AppState :=
  if s.imageVisible then
    { s with
        chk_fit := false,
        image := { s.image with fit_to_window := false, zoom := 1 } }
  else
    { s with
        text_zoom := 1,
        font := { base := FontBase.systemFixed, scale := 1 } }

/-- `MainWindow.clear` (lines 173–178): drop the current path, clear and
hide both views, clear the status message. -/
def clear (s : AppState) : AppState :=
  { s with
      current_path := none
      textContent := ""
      cursor := 0
      selection := none
      textVisible := false
      imageVisible := false
      statusMsg := none }

/-- A Python `OSError` as raised by `open`/`read`: `str(e)` renders as
`"[Errno <n>] <strerror>"`. -/
structure IOErr where
  errno : Nat
  strerror : String
deriving DecidableEq

def IOErr.msg (e : IOErr) : String :=
  "[Errno " ++ toString e.errno ++ "] " ++ e.strerror

/-- The environment `load_path` interacts with: `QPixmap(str(path))`
(`none` exactly when `pix.isNull()`, otherwise its width and height) and
`open(path, "rb").read().decode("utf-8", errors="replace")` (the lossy
decode is total, so a successful read yields the decoded string). -/
structure Env where
  decodePixmap : String → Option (Nat × Nat)
  readBytes : String → Except IOErr String

/-- `self._recents = self._recents[-10:]`. -/
def takeLast10 (l : List String) : List String := l.drop (l.length - 10)

/-- The recents update in `load_path` (lines 205–208): remove the path if
present, append it, keep the last 10. -/
def updateRecents (r : List String) (p : String) : List String :=
  takeLast10 ((if p ∈ r then r.erase p else r) ++ [p])

/-- `MainWindow.load_path` (lines 180–209): returns the new state and the
message of the modal error dialog, if one was shown.  Note the code sets
`self._current_path = path` before the `try` block, so the stored path is
updated even when the load fails.  `setPlainText` places the text cursor
at the document start. -/
def load_path (env : Env) (s : AppState) (path : String) : AppState × Option String :=
  let s1 := { s with current_path := some path }
  if extOf path ∈ IMG_EXTS then
    match env.decodePixmap path with
    | none => (s1, some "Failed to load image")
    | some (w, h) =>
      let s2 := { s1 with
        image := set_image s1.image (w, h),
        textVisible := false,
        imageVisible := true,
        statusMsg := some (path ++ " — " ++ toString w ++ "x" ++ toString h ++ " px") }
      ({ s2 with recents := updateRecents s2.recents path }, none)
  else
    match env.readBytes path with
    | Except.error e => (s1, some e.msg)
    | Except.ok text =>
      let s2 := { s1 with
        textContent := text,
        cursor := 0,
        selection := none,
        textVisible := true,
        imageVisible := false,
        statusMsg := some (path ++ " — " ++ toString (lineCount text) ++ " lines") }
      ({ s2 with recents := updateRecents s2.recents path }, none)

/-- `QPlainTextEdit.find(needle)` with default flags: forward, literal,
case-insensitive search from the current cursor (no `FindCaseSensitively`
flag is passed); on success the match becomes the selection and the
cursor moves to its end. -/
def qfind (s : AppState) (needle : String) : AppState × Bool :=
  match findFrom s.textContent.toList needle.toList s.cursor with
  | some i =>
    ({ s with cursor := i + needle.length, selection := some (i, i + needle.length) }, true)
  | none => (s, false)

/-- `MainWindow.update_find_count` (lines 236–242). -/
def update_find_count (s : AppState) (needle : String) : AppState :=
  if s.textVisible then
    { s with find_countLabel :=
        toString (pyCount needle.toList s.textContent.toList) ++ " match(es)" }
  else { s with find_countLabel := "" }

/-- `MainWindow.find_next` (lines 223–234): no-op on an empty needle or a
hidden text view; otherwise find forward, wrapping to the start and
retrying once on failure, then recompute the match count. -/
def find_next (s : AppState) : AppState :=
  let needle := s.find_text
  if needle = "" ∨ s.textVisible = false then s
  else
    let fr := qfind s needle
    let s2 := if fr.2 then fr.1
      else (qfind { fr.1 with cursor := 0, selection := none } needle).1
    update_find_count s2 needle

/-- The operations of the load/clear state machine of claim C4. -/
inductive LOp
  | load (env : Env) (path : String)
  | doClear

/-- Run a sequence of load/clear operations; each load carries its own
environment, so the filesystem may change arbitrarily between loads. -/
def runLOps (s : AppState) : List LOp → AppState
  | [] => s
  | LOp.load env p :: rest => runLOps (load_path env s p).1 rest
  | LOp.doClear :: rest => runLOps (clear s) rest

/-- Multiplicative zoom steps: the two wheel handlers of `eventFilter`
and the `Zoom -` / `Zoom +` / `100%` toolbar actions (lines 100–105),
which call `zoom_image(1/1.1)`, `zoom_image(1.1)` and `reset_zoom`. -/
inductive ZOp
  | wheelImage (delta : Int)
  | wheelText (delta : Int)
  | zoomInAct
  | zoomOutAct
  | resetAct

/-- One zoom step. -/
def stepZ (s : AppState) : ZOp → AppState
  | ZOp.wheelImage d => (eventFilter s Widget.imageW d false).1
  | ZOp.wheelText d => (eventFilter s Widget.textW d true).1
  | ZOp.zoomInAct => zoom_image s (11/10)
  | ZOp.zoomOutAct => zoom_image s (10/11)
  | ZOp.resetAct => reset_zoom s

/-- Run a sequence of zoom steps. -/
def runZOps (s : AppState) (ops : List ZOp) : AppState := ops.foldl stepZ s

/-- Spec-side formula: `clamp(x, lo, hi)` as the spec words it. -/
def clampSpec (lo hi x : ℚ) : ℚ := max lo (min hi x)

/-- Spec-side formula: the fit-to-window scale
`clamp(min(viewportWidth/bitmapWidth, viewportHeight/bitmapHeight), 0.1, 6.0)`. -/
def fitScaleSpec (vw vh bw bh : Nat) : ℚ :=
  clampSpec (1/10) 6 (min ((vw : ℚ) / bw) ((vh : ℚ) / bh))

/-- An environment in which every image decode fails and every read
succeeds with content `"hello"`. -/
def failingEnv : Env :=
  { decodePixmap := fun _ => none, readBytes := fun _ => Except.ok "hello" }

/-- A state reached by successfully loading `"a.txt"` in `failingEnv`. -/
def preFailState : AppState := (load_path failingEnv initState "a.txt").1

/-- An environment in which every decode and every read succeeds. -/
def sampleEnv : Env :=
  { decodePixmap := fun _ => some (4, 3), readBytes := fun _ => Except.ok "hello" }

/-- One Ctrl+wheel-up tick delivered to the text widget. -/
def ctrlTick (s : AppState) : AppState := deliverWheel s Widget.textW 120 true

/-- A text-view state showing `"ab ab ab"` with needle `"ab"`. -/
def exFindState : AppState :=
  { initState with textContent := "ab ab ab", find_text := "ab" }

/-- A text-view state showing `"AB"` with needle `"ab"`: the needle
occurs case-insensitively but not case-sensitively. -/
def ciFindState : AppState :=
  { initState with textContent := "AB", find_text := "ab" }

/-- Claim C2: contrary to the claim, a mouse-wheel tick delivered to the
image view never changes any state: `__init__` installs the event filter
only on the text widget (line 119), so the image branch of `eventFilter`
(lines 122–128) is unreachable and the wheel event falls through to the
default `QLabel` handling, leaving zoom and fit-to-window untouched. -/
theorem image_wheel_tick_changes_nothing (s : AppState) (delta : Int) (ctrl : Bool) :
    deliverWheel s Widget.imageW delta ctrl = s := by
  simp [deliverWheel, watchedWidgets]

/-- Claim C9: a successful text load sets the status message to
`"<path> — <N> lines"` where `N` is the newline count plus one for
non-empty content and `0` for empty content; in particular `""` has 0
lines, `"a\nb"` has 2 and `"a\nb\n"` has 3. -/
theorem text_load_status_line_count (env : Env) (s : AppState) (path content : String)
    (himg : extOf path ∉ IMG_EXTS) (hread : env.readBytes path = Except.ok content) :
    (load_path env s path).1.statusMsg =
      some (path ++ " — " ++ toString (lineCount content) ++ " lines") ∧
    lineCount "" = 0 ∧ lineCount "a\nb" = 2 ∧ lineCount "a\nb\n" = 3 := by
  refine ⟨?_, by decide, by decide, by decide⟩
  simp [load_path, himg, hread]

theorem text_load_status_line_count_witness :
    (extOf "a.txt" ∉ IMG_EXTS ∧ sampleEnv.readBytes "a.txt" = Except.ok "hello") ∧
    ((load_path sampleEnv initState "a.txt").1.statusMsg =
      some ("a.txt" ++ " — " ++ toString (lineCount "hello") ++ " lines") ∧
     lineCount "" = 0 ∧ lineCount "a\nb" = 2 ∧ lineCount "a\nb\n" = 3) :=
  ⟨⟨by decide, rfl⟩,
   text_load_status_line_count sampleEnv initState "a.txt" "hello" (by decide) rfl⟩

theorem paintEvent_fit_eq (pw ph vw vh : Nat) (z : ℚ) (hw : 0 < pw) (hh : 0 < ph) :
    paintEvent { pix := some (pw, ph), zoom := z, fit_to_window := true } vw vh =
      some (Int.fdiv ((vw : Int) - ⌊(pw : ℚ) * fitScaleSpec vw vh pw ph⌋) 2,
            Int.fdiv ((vh : Int) - ⌊(ph : ℚ) * fitScaleSpec vw vh pw ph⌋) 2,
            ⌊(pw : ℚ) * fitScaleSpec vw vh pw ph⌋,
            ⌊(ph : ℚ) * fitScaleSpec vw vh pw ph⌋) := by
  have hscale : paintScale { pix := some (pw, ph), zoom := z, fit_to_window := true } vw vh
      = fitScaleSpec vw vh pw ph := by
    simp [paintScale, fitScaleSpec, clampSpec, hw, hh]
  have hpos : (0 : ℚ) ≤ fitScaleSpec vw vh pw ph := by
    unfold fitScaleSpec clampSpec
    exact le_trans (by norm_num) (le_max_left _ _)
  have hw' : (0 : ℚ) ≤ (pw : ℚ) * fitScaleSpec vw vh pw ph :=
    mul_nonneg (Nat.cast_nonneg _) hpos
  have hh' : (0 : ℚ) ≤ (ph : ℚ) * fitScaleSpec vw vh pw ph :=
    mul_nonneg (Nat.cast_nonneg _) hpos
  simp [paintEvent, hscale, pyInt, hw', hh']

/-- Claim C7: in fit-to-window mode with a positive-dimension bitmap the
paint scale is `clamp(min(vw/bw, vh/bh), 0.1, 6.0)`, the output rectangle
is the bitmap dimensions times the scale floored to integers, centered by
integer division; viewport 800×600 with bitmap 1600×300 yields scale 0.5,
output 800×150 at y = 225. -/
theorem fit_render_geometry (pw ph vw vh : Nat) (z : ℚ) (hw : 0 < pw) (hh : 0 < ph) :
    paintEvent { pix := some (pw, ph), zoom := z, fit_to_window := true } vw vh =
      some (Int.fdiv ((vw : Int) - ⌊(pw : ℚ) * fitScaleSpec vw vh pw ph⌋) 2,
            Int.fdiv ((vh : Int) - ⌊(ph : ℚ) * fitScaleSpec vw vh pw ph⌋) 2,
            ⌊(pw : ℚ) * fitScaleSpec vw vh pw ph⌋,
            ⌊(ph : ℚ) * fitScaleSpec vw vh pw ph⌋) ∧
    paintEvent { pix := some (1600, 300), zoom := z, fit_to_window := true } 800 600 =
      some (0, 225, 800, 150) := by
  refine ⟨paintEvent_fit_eq pw ph vw vh z hw hh, ?_⟩
  rw [paintEvent_fit_eq 1600 300 800 600 z (by norm_num) (by norm_num)]
  have hs : fitScaleSpec 800 600 1600 300 = 1/2 := by
    simp only [fitScaleSpec, clampSpec]
    push_cast
    rw [min_def, min_def, max_def]
    norm_num
  rw [hs]
  have h1 : ((1600 : Nat) : ℚ) * (1/2) = ((800 : Int) : ℚ) := by push_cast; norm_num
  have h2 : ((300 : Nat) : ℚ) * (1/2) = ((150 : Int) : ℚ) := by push_cast; norm_num
  rw [h1, h2, Int.floor_intCast, Int.floor_intCast]
  decide

theorem fit_render_geometry_witness :
    (0 < 1600 ∧ 0 < 300) ∧
    (paintEvent { pix := some (1600, 300), zoom := 1, fit_to_window := true } 800 600 =
      some (Int.fdiv ((800 : Int) - ⌊(1600 : ℚ) * fitScaleSpec 800 600 1600 300⌋) 2,
            Int.fdiv ((600 : Int) - ⌊(300 : ℚ) * fitScaleSpec 800 600 1600 300⌋) 2,
            ⌊(1600 : ℚ) * fitScaleSpec 800 600 1600 300⌋,
            ⌊(300 : ℚ) * fitScaleSpec 800 600 1600 300⌋) ∧
     paintEvent { pix := some (1600, 300), zoom := 1, fit_to_window := true } 800 600 =
      some (0, 225, 800, 150)) :=
  ⟨⟨by decide, by decide⟩,
   fit_render_geometry 1600 300 800 600 1 (by decide) (by decide)⟩

/-- Claim C10: `set_image` resets the stored zoom to 1.0 and leaves
`fit_to_window` unchanged, so an image loaded while fit-to-window is
enabled keeps rendering in fit-to-window mode (the paint scale is the
viewport-fit formula, not the reset factor). -/
theorem set_image_keeps_fit_resets_zoom (env : Env) (s : AppState) (path : String)
    (w h : Nat) (himg : extOf path ∈ IMG_EXTS) (hdec : env.decodePixmap path = some (w, h)) :
    (∀ (iv : ImageViewState) (p : Nat × Nat),
      (set_image iv p).zoom = 1 ∧ (set_image iv p).fit_to_window = iv.fit_to_window) ∧
    (load_path env s path).1.image.zoom = 1 ∧
    (load_path env s path).1.image.fit_to_window = s.image.fit_to_window ∧
    (s.image.fit_to_window = true → 0 < w → 0 < h → ∀ vw vh : Nat,
      paintScale (load_path env s path).1.image vw vh = fitScaleSpec vw vh w h) := by
  refine ⟨fun iv p => ⟨rfl, rfl⟩, ?_, ?_, ?_⟩
  · simp [load_path, himg, hdec, set_image]
  · simp [load_path, himg, hdec, set_image]
  · intro hfit hw hh vw vh
    simp [load_path, himg, hdec, set_image, paintScale, hfit, hw, hh,
      fitScaleSpec, clampSpec]

theorem set_image_keeps_fit_resets_zoom_witness :
    (extOf "a.png" ∈ IMG_EXTS ∧ sampleEnv.decodePixmap "a.png" = some (4, 3)) ∧
    ((∀ (iv : ImageViewState) (p : Nat × Nat),
      (set_image iv p).zoom = 1 ∧ (set_image iv p).fit_to_window = iv.fit_to_window) ∧
     (load_path sampleEnv initState "a.png").1.image.zoom = 1 ∧
     (load_path sampleEnv initState "a.png").1.image.fit_to_window =
       initState.image.fit_to_window ∧
     (initState.image.fit_to_window = true → 0 < 4 → 0 < 3 → ∀ vw vh : Nat,
       paintScale (load_path sampleEnv initState "a.png").1.image vw vh =
         fitScaleSpec vw vh 4 3)) :=
  ⟨⟨by decide, rfl⟩,
   set_image_keeps_fit_resets_zoom sampleEnv initState "a.png" 4 3 (by decide) rfl⟩

theorem ioerr_msg_ne_empty (e : IOErr) : e.msg ≠ "" := by
  have h7 : ("[Errno " : String).length = 7 := rfl
  have h0 : ("" : String).length = 0 := rfl
  intro hc
  have hlen := congrArg String.length hc
  simp only [IOErr.msg, String.length_append, h7, h0] at hlen
  omega

/-- Claim C1 counterexample: a failed image decode does not leave the
stored current path unchanged — `load_path` assigns `self._current_path =
path` before the `try` block, so after a failing load of `"bad.png"` the
stored path is `"bad.png"`, not the previously loaded `"a.txt"`. -/
theorem load_failure_changes_current_path :
    (load_path failingEnv preFailState "bad.png").2 = some "Failed to load image" ∧
    preFailState.current_path = some "a.txt" ∧
    (load_path failingEnv preFailState "bad.png").1.current_path ≠
      preFailState.current_path := by
  decide

/-- Claim C1 (amended): a failed load (image decode failure or unreadable
file) leaves every component of the pre-load state unchanged except the
stored current path, which is set to the attempted path, and reports the
error via a modal notification with a non-empty message. -/
theorem load_failure_preserves_ui_reports_error (env : Env) (s : AppState) (path : String)
    (hfail : (extOf path ∈ IMG_EXTS ∧ env.decodePixmap path = none) ∨
             (extOf path ∉ IMG_EXTS ∧ ∃ e, env.readBytes path = Except.error e)) :
    (load_path env s path).1 = { s with current_path := some path } ∧
    ∃ m : String, (load_path env s path).2 = some m ∧ m ≠ "" := by
  rcases hfail with ⟨h1, h2⟩ | ⟨h1, e, h2⟩
  · exact ⟨by simp [load_path, h1, h2], "Failed to load image",
      by simp [load_path, h1, h2], by decide⟩
  · exact ⟨by simp [load_path, h1, h2], e.msg,
      by simp [load_path, h1, h2], ioerr_msg_ne_empty e⟩

theorem load_failure_preserves_ui_reports_error_witness :
    ((extOf "bad.png" ∈ IMG_EXTS ∧ failingEnv.decodePixmap "bad.png" = none) ∨
     (extOf "bad.png" ∉ IMG_EXTS ∧ ∃ e, failingEnv.readBytes "bad.png" = Except.error e)) ∧
    ((load_path failingEnv preFailState "bad.png").1 =
        { preFailState with current_path := some "bad.png" } ∧
     ∃ m : String, (load_path failingEnv preFailState "bad.png").2 = some m ∧ m ≠ "") :=
  ⟨Or.inl ⟨by decide, rfl⟩,
   load_failure_preserves_ui_reports_error failingEnv preFailState "bad.png"
     (Or.inl ⟨by decide, rfl⟩)⟩

theorem ctrlTick_font_scale (s : AppState) :
    (ctrlTick s).font.scale = s.font.scale * (21/20) := by
  norm_num [ctrlTick, deliverWheel, watchedWidgets, eventFilter]

theorem ctrlTick_iter_font_scale (n : Nat) :
    (ctrlTick^[n] initState).font.scale = (21/20) ^ n := by
  induction n with
  | zero => simp [initState]
  | succ k ih =>
    rw [Function.iterate_succ_apply', ctrlTick_font_scale, ih, pow_succ]

/-- Claim C3 counterexample: after 23 Ctrl+wheel-up ticks on the text
view the applied font point size is `1.05 ^ 23 > 3` times the base — it
is not clamped to `[0.6, 3.0]` (only the stored `text_zoom` is clamped,
saturating at 3). -/
theorem ctrl_wheel_font_scale_exceeds_bound :
    3 < (ctrlTick^[23] initState).font.scale := by
  rw [ctrlTick_iter_font_scale]
  norm_num

theorem clamp_bounds (lo hi x : ℚ) (h : lo ≤ hi) :
    lo ≤ max lo (min hi x) ∧ max lo (min hi x) ≤ hi :=
  ⟨le_max_left _ _, max_le h (min_le_left _ _)⟩

/-- Claim C3 (amended): each Ctrl+wheel tick on the text view multiplies
the stored text zoom factor by 1.05 (up) or 1/1.05 (down) with the result
clamped to `[0.6, 3.0]`, but multiplies the applied font point size by
the same step without clamping; the reset action (with the image view
hidden) restores the default fixed-width font and factor 1.0. -/
theorem ctrl_wheel_text_zoom_behavior (s : AppState) (delta : Int) (hd : delta ≠ 0) :
    (3/5 ≤ (eventFilter s Widget.textW delta true).1.text_zoom ∧
     (eventFilter s Widget.textW delta true).1.text_zoom ≤ 3) ∧
    (eventFilter s Widget.textW delta true).1.font.scale =
      s.font.scale * (if 0 < delta then 21/20 else 20/21) ∧
    (s.imageVisible = false →
      (reset_zoom s).font = { base := FontBase.systemFixed, scale := 1 } ∧
      (reset_zoom s).text_zoom = 1) := by
  refine ⟨?_, ?_, ?_⟩
  · have hb := clamp_bounds (3/5) 3
      (s.text_zoom * (if 0 < delta then 21/20 else 20/21)) (by norm_num)
    simpa [eventFilter, hd] using hb
  · simp [eventFilter, hd]
  · intro hvis
    simp [reset_zoom, hvis]

theorem ctrl_wheel_text_zoom_behavior_witness :
    (120 : Int) ≠ 0 ∧
    ((3/5 ≤ (eventFilter initState Widget.textW 120 true).1.text_zoom ∧
      (eventFilter initState Widget.textW 120 true).1.text_zoom ≤ 3) ∧
     (eventFilter initState Widget.textW 120 true).1.font.scale =
       initState.font.scale * (if (0 : Int) < 120 then 21/20 else 20/21) ∧
     (initState.imageVisible = false →
       (reset_zoom initState).font = { base := FontBase.systemFixed, scale := 1 } ∧
       (reset_zoom initState).text_zoom = 1)) :=
  ⟨by decide, ctrl_wheel_text_zoom_behavior initState 120 (by decide)⟩

/-- Claim C4: starting from the initial state, no sequence of `load_path`
(successful or failed, over any environment) and `clear` operations can
make the image view and the text view visible at the same time. -/
theorem views_never_both_visible (ops : List LOp) :
    ¬ ((runLOps initState ops).imageVisible = true ∧
       (runLOps initState ops).textVisible = true) := by
  have key : ∀ (ops : List LOp) (s : AppState),
      ¬ (s.imageVisible = true ∧ s.textVisible = true) →
      ¬ ((runLOps s ops).imageVisible = true ∧
         (runLOps s ops).textVisible = true) := by
    intro ops
    induction ops with
    | nil => intro s h; exact h
    | cons op rest ih =>
      intro s h
      cases op with
      | load env p =>
        apply ih
        by_cases hi : extOf p ∈ IMG_EXTS
        · cases hdec : env.decodePixmap p with
          | none => simpa [runLOps, load_path, hi, hdec] using h
          | some wh => simp [runLOps, load_path, hi, hdec]
        · cases hr : env.readBytes p with
          | error e => simpa [runLOps, load_path, hi, hr] using h
          | ok t => simp [runLOps, load_path, hi, hr]
      | doClear =>
        apply ih
        simp [clear]
  exact key ops initState (by simp [initState])

/-- Claim C8: under any sequence of multiplicative zoom steps applied
through the wheel handlers and the `Zoom +` / `Zoom -` / `100%` actions,
the stored image zoom factor stays within `[0.1, 6.0]` and the stored
text zoom factor stays within `[0.6, 3.0]`. -/
theorem zoom_factors_remain_clamped (ops : List ZOp) :
    (1/10 ≤ (runZOps initState ops).image.zoom ∧
     (runZOps initState ops).image.zoom ≤ 6) ∧
    (3/5 ≤ (runZOps initState ops).text_zoom ∧
     (runZOps initState ops).text_zoom ≤ 3) := by
  have hstep : ∀ (s : AppState) (op : ZOp),
      ((1/10 ≤ s.image.zoom ∧ s.image.zoom ≤ 6) ∧
       (3/5 ≤ s.text_zoom ∧ s.text_zoom ≤ 3)) →
      ((1/10 ≤ (stepZ s op).image.zoom ∧ (stepZ s op).image.zoom ≤ 6) ∧
       (3/5 ≤ (stepZ s op).text_zoom ∧ (stepZ s op).text_zoom ≤ 3)) := by
    rintro s op ⟨hi, ht⟩
    cases op with
    | wheelImage d =>
      by_cases hd : d = 0
      · constructor
        · simpa [stepZ, eventFilter, hd] using hi
        · simpa [stepZ, eventFilter, hd] using ht
      · have hb := clamp_bounds (1/10) 6
          (s.image.zoom * (if 0 < d then (11 : ℚ)/10 else 10/11)) (by norm_num)
        constructor
        · simpa [stepZ, eventFilter, hd] using hb
        · simpa [stepZ, eventFilter, hd] using ht
    | wheelText d =>
      by_cases hd : d = 0
      · constructor
        · simpa [stepZ, eventFilter, hd] using hi
        · simpa [stepZ, eventFilter, hd] using ht
      · have hb := clamp_bounds (3/5) 3
          (s.text_zoom * (if 0 < d then (21 : ℚ)/20 else 20/21)) (by norm_num)
        constructor
        · simpa [stepZ, eventFilter, hd] using hi
        · simpa [stepZ, eventFilter, hd] using hb
    | zoomInAct =>
      by_cases hv : s.imageVisible = true
      · have hb := clamp_bounds (1/10) 6 (s.image.zoom * (11/10)) (by norm_num)
        constructor
        · simpa [stepZ, zoom_image, hv] using hb
        · simpa [stepZ, zoom_image, hv] using ht
      · constructor
        · simpa [stepZ, zoom_image, hv] using hi
        · simpa [stepZ, zoom_image, hv] using ht
    | zoomOutAct =>
      by_cases hv : s.imageVisible = true
      · have hb := clamp_bounds (1/10) 6 (s.image.zoom * (10/11)) (by norm_num)
        constructor
        · simpa [stepZ, zoom_image, hv] using hb
        · simpa [stepZ, zoom_image, hv] using ht
      · constructor
        · simpa [stepZ, zoom_image, hv] using hi
        · simpa [stepZ, zoom_image, hv] using ht
    | resetAct =>
      by_cases hv : s.imageVisible = true
      · constructor
        · simp [stepZ, reset_zoom, hv]
          norm_num
        · simpa [stepZ, reset_zoom, hv] using ht
      · constructor
        · simpa [stepZ, reset_zoom, hv] using hi
        · simp [stepZ, reset_zoom, hv]
          norm_num
  have key : ∀ (ops : List ZOp) (s : AppState),
      ((1/10 ≤ s.image.zoom ∧ s.image.zoom ≤ 6) ∧
       (3/5 ≤ s.text_zoom ∧ s.text_zoom ≤ 3)) →
      ((1/10 ≤ (runZOps s ops).image.zoom ∧ (runZOps s ops).image.zoom ≤ 6) ∧
       (3/5 ≤ (runZOps s ops).text_zoom ∧ (runZOps s ops).text_zoom ≤ 3)) := by
    intro ops
    induction ops with
    | nil => intro s h; simpa [runZOps] using h
    | cons op rest ih =>
      intro s h
      have h1 := hstep s op h
      simp only [runZOps, List.foldl_cons]
      exact ih (stepZ s op) h1
  have h0 : ((1/10 ≤ initState.image.zoom ∧ initState.image.zoom ≤ 6) ∧
      (3/5 ≤ initState.text_zoom ∧ initState.text_zoom ≤ 3)) := by
    refine ⟨⟨?_, ?_⟩, ?_, ?_⟩ <;> norm_num [initState]
  exact ⟨(key ops initState h0).1, (key ops initState h0).2⟩

/-- Claim C6 counterexample: on content `"AB"` with needle `"ab"` (text
view visible) `find_next` selects `(0, 2)` and moves the cursor to 2,
although the needle has zero case-sensitive occurrences in the content
(the count label accordingly shows `"0 match(es)"`):
`QPlainTextEdit.find` matches case-insensitively by default, refuting the
claim's "case-sensitive" search. -/
theorem find_next_selects_case_insensitive_match :
    pyCount "ab".toList "AB".toList = 0 ∧
    (find_next ciFindState).selection = some (0, 2) ∧
    (find_next ciFindState).cursor = 2 ∧
    (find_next ciFindState).find_countLabel = "0 match(es)" := by
  decide

/-- Claim C6 (amended): with a non-empty needle and the text view
visible, `find_next` moves the selection to the next occurrence of the
needle at or after the cursor — literal, forward, and case-insensitive
(Qt's default find; no `FindCaseSensitively` flag is passed); if none
exists it moves the cursor to the start and retries exactly once; the
displayed match count is the number of case-sensitive non-overlapping
occurrences of the needle in the full content (Python `str.count`),
recomputed on every invocation and independent of the cursor, so
navigation and the count can disagree on mixed-case content; on content
`"ab ab ab"` with needle `"ab"` repeated calls cycle through all three
occurrences and wrap to the first; with an empty needle or a hidden text
view, `find_next` is a no-op. -/
theorem find_next_behavior :
    (∀ s : AppState, s.find_text = "" ∨ s.textVisible = false → find_next s = s) ∧
    (∀ s : AppState, s.find_text ≠ "" → s.textVisible = true →
      (find_next s).find_countLabel =
        toString (pyCount s.find_text.toList s.textContent.toList) ++ " match(es)") ∧
    (∀ s : AppState, s.find_text ≠ "" → s.textVisible = true →
      ((∀ i, findFrom s.textContent.toList s.find_text.toList s.cursor = some i →
          (find_next s).selection = some (i, i + s.find_text.length) ∧
          (find_next s).cursor = i + s.find_text.length) ∧
       (findFrom s.textContent.toList s.find_text.toList s.cursor = none →
          ∀ j, findFrom s.textContent.toList s.find_text.toList 0 = some j →
            (find_next s).selection = some (j, j + s.find_text.length) ∧
            (find_next s).cursor = j + s.find_text.length))) ∧
    ((find_next exFindState).selection = some (0, 2) ∧
     (find_next (find_next exFindState)).selection = some (3, 5) ∧
     (find_next (find_next (find_next exFindState))).selection = some (6, 8) ∧
     (find_next (find_next (find_next (find_next exFindState)))).selection = some (0, 2) ∧
     (find_next exFindState).find_countLabel = "3 match(es)" ∧
     (find_next { exFindState with cursor := 5 }).find_countLabel = "3 match(es)" ∧
     (find_next ciFindState).selection = some (0, 2) ∧
     (find_next ciFindState).find_countLabel = "0 match(es)") := by
  refine ⟨?_, ?_, ?_, ?_⟩
  · intro s h
    unfold find_next
    rw [if_pos h]
  · intro s hne hvis
    unfold find_next qfind
    rw [if_neg (by simp [hne, hvis])]
    cases hfind : findFrom s.textContent.toList s.find_text.toList s.cursor with
    | some i =>
      simp only []
      simp [update_find_count, hvis]
    | none =>
      simp only []
      cases hfind0 : findFrom s.textContent.toList s.find_text.toList 0 with
      | some j =>
        simp only []
        simp [update_find_count, hvis]
      | none =>
        simp only []
        simp [update_find_count, hvis]
  · intro s hne hvis
    constructor
    · intro i hfind
      unfold find_next qfind
      rw [if_neg (by simp [hne, hvis])]
      rw [hfind]
      simp only []
      simp [update_find_count, hvis]
    · intro hfind j hfind0
      unfold find_next qfind
      rw [if_neg (by simp [hne, hvis])]
      rw [hfind]
      simp only []
      rw [hfind0]
      simp only []
      simp [update_find_count, hvis]
  · refine ⟨?_, ?_, ?_, ?_, ?_, ?_, ?_, ?_⟩ <;> decide

theorem find_next_behavior_witness :
    (exFindState.find_text ≠ "" ∧ exFindState.textVisible = true) ∧
    (find_next exFindState).find_countLabel =
      toString (pyCount exFindState.find_text.toList exFindState.textContent.toList) ++
        " match(es)" :=
  ⟨⟨by decide, by decide⟩,
   find_next_behavior.2.1 exFindState (by decide) (by decide)⟩

theorem updateRecents_length (r : List String) (p : String) :
    (updateRecents r p).length ≤ 10 := by
  unfold updateRecents takeLast10
  rw [List.length_drop]
  omega

theorem updateRecents_nodup (r : List String) (p : String) (h : r.Nodup) :
    (updateRecents r p).Nodup := by
  unfold updateRecents takeLast10
  apply (List.drop_sublist _ _).nodup
  rw [List.nodup_append]
  by_cases hp : p ∈ r
  · refine ⟨by rw [if_pos hp]; exact h.erase p, List.nodup_singleton p, ?_⟩
    intro x hx hxa
    rw [if_pos hp] at hx
    rw [List.mem_singleton] at hxa
    subst hxa
    exact ((h.mem_erase_iff).mp hx).1 rfl
  · refine ⟨by rw [if_neg hp]; exact h, List.nodup_singleton p, ?_⟩
    intro x hx hxa
    rw [if_neg hp] at hx
    rw [List.mem_singleton] at hxa
    subst hxa
    exact hp hx

theorem fold_updateRecents_nodup :
    ∀ (ps r : List String), r.Nodup → (List.foldl updateRecents r ps).Nodup := by
  intro ps
  induction ps with
  | nil => intro r h; simpa using h
  | cons p rest ih =>
    intro r h
    simp only [List.foldl_cons]
    exact ih _ (updateRecents_nodup r p h)

theorem fold_updateRecents_length :
    ∀ (ps r : List String), r.length ≤ 10 → (List.foldl updateRecents r ps).length ≤ 10 := by
  intro ps
  induction ps with
  | nil => intro r h; simpa using h
  | cons p rest ih =>
    intro r _
    simp only [List.foldl_cons]
    exact ih _ (updateRecents_length r p)

theorem fold_updateRecents_short :
    ∀ (ps : List String), ps.Nodup → ps.length ≤ 10 →
      List.foldl updateRecents [] ps = ps := by
  intro ps
  induction ps using List.reverseRecOn with
  | nil => intro _ _; rfl
  | append_singleton l a ih =>
    intro hnd hlen
    have hl : l.Nodup := (List.nodup_append.mp hnd).1
    have ha : a ∉ l := fun hmem =>
      (List.nodup_append.mp hnd).2.2 hmem (List.mem_singleton_self a)
    have hlen' : l.length + 1 ≤ 10 := by
      simpa [List.length_append] using hlen
    rw [List.foldl_append]
    simp only [List.foldl_cons, List.foldl_nil]
    rw [ih hl (by omega)]
    unfold updateRecents
    rw [if_neg ha]
    unfold takeLast10
    have h0 : (l ++ [a]).length - 10 = 0 := by
      simp only [List.length_append, List.length_singleton]
      omega
    rw [h0, List.drop_zero]

/-- Claim C5: the recent list holds at most 10 distinct paths in
most-recently-used-last order: it stays duplicate-free and capped at 10
under any sequence of successful loads, re-loading a present path moves
it to the end (A, B, A yields [B, A]), an 11th distinct path evicts the
oldest so the most recent 10 remain, and every successful `load_path`
applies exactly this update. -/
theorem recent_list_mru_bounded :
    (∀ ps : List String, (List.foldl updateRecents [] ps).length ≤ 10 ∧
      (List.foldl updateRecents [] ps).Nodup) ∧
    (∀ A B : String, A ≠ B → List.foldl updateRecents [] [A, B, A] = [B, A]) ∧
    (∀ ps : List String, ps.Nodup → ps.length = 11 →
      List.foldl updateRecents [] ps = ps.tail) ∧
    (∀ (env : Env) (s : AppState) (p : String), (load_path env s p).2 = none →
      (load_path env s p).1.recents = updateRecents s.recents p) := by
  refine ⟨?_, ?_, ?_, ?_⟩
  · intro ps
    exact ⟨fold_updateRecents_length ps [] (by simp),
      fold_updateRecents_nodup ps [] List.nodup_nil⟩
  · intro A B hne
    have h1 : updateRecents [] A = [A] := rfl
    have h2 : updateRecents [A] B = [A, B] := by
      unfold updateRecents
      rw [if_neg (fun hh => hne (List.mem_singleton.mp hh).symm)]
      rfl
    have h3 : updateRecents [A, B] A = [B, A] := by
      unfold updateRecents
      rw [if_pos (List.mem_cons_self A [B]), List.erase_cons_head]
      rfl
    simp only [List.foldl_cons, List.foldl_nil, h1, h2, h3]
  · intro ps
    induction ps using List.reverseRecOn with
    | nil => intro _ hlen; simp at hlen
    | append_singleton l a ih =>
      intro hnd hlen
      have hl : l.Nodup := (List.nodup_append.mp hnd).1
      have ha : a ∉ l := fun hmem =>
        (List.nodup_append.mp hnd).2.2 hmem (List.mem_singleton_self a)
      have hlen' : l.length = 10 := by
        simp only [List.length_append, List.length_singleton] at hlen
        omega
      rw [List.foldl_append]
      simp only [List.foldl_cons, List.foldl_nil]
      rw [fold_updateRecents_short l hl (by omega)]
      unfold updateRecents
      rw [if_neg ha]
      unfold takeLast10
      have h1 : (l ++ [a]).length - 10 = 1 := by
        simp only [List.length_append, List.length_singleton]
        omega
      rw [h1, List.drop_one]
  · intro env s p hsucc
    by_cases hi : extOf p ∈ IMG_EXTS
    · cases hdec : env.decodePixmap p with
      | none => simp [load_path, hi, hdec] at hsucc
      | some wh =>
        cases wh with
        | mk w h => simp [load_path, hi, hdec]
    · cases hr : env.readBytes p with
      | error e => simp [load_path, hi, hr] at hsucc
      | ok t => simp [load_path, hi, hr]

theorem recent_list_mru_bounded_witness :
    ("A" : String) ≠ "B" ∧
    List.foldl updateRecents [] ["A", "B", "A"] = ["B", "A"] :=
  ⟨by decide, recent_list_mru_bounded.2.1 "A" "B" (by decide)⟩

end FileViewer
